import Mathlib

/-!
Verification of the `@uniweb/kit` content renderer and search client.

This file gives a shallow embedding, in Lean, of the claim-relevant parts of
the repository:

* `src/snippets.js` — `escapeHtml`, `buildSnippet`, `highlightMatches`;
* `src/search.js` — `loadSearchIndex`, `clearSearchCache`,
  `createSearchClient` (in particular its `query` method);
* `src/styled/Section/Render.jsx` — `extractText`, `generateId`,
  `RenderNode`, `Render`.

JavaScript strings are modelled as `List Char` (`Str`), JavaScript numbers at
the relevant call sites as `Nat`/`Int` (all index arithmetic in the sources is
integer arithmetic), `undefined`/`null`-able values as `Option`, thrown errors
and promise rejection as `Except`, and the module-level mutable caches plus
`localStorage` as an explicitly threaded `World` state.  Network fetches and
the external Fuse.js library are inputs of the model (`Env`), and an explicit
trace of fetched URLs records the network effect.
-/

namespace Kit

/-- JavaScript strings are modelled as lists of characters. -/
abbrev Str := List Char

/-- The JS expression `text.slice(a, b)` for `0 ≤ a` and `0 ≤ b`
(the only forms the embedded code produces). -/
def jsSlice (s : Str) (a b : Nat) : Str := (s.take b).drop a

/-- The truthiness-based defaulting `x || d` for an optional JS string:
`undefined` and the empty string both fall back to the default. -/
def jsOr (x : Option Str) (d : Str) : Str :=
  match x with
  | some s => if s = [] then d else s
  | none => d

/-- JS `String.prototype.startsWith`: `jsStartsWith s p` holds when `p` is an
initial segment of `s`. -/
def jsStartsWith : Str → Str → Bool
  | _, [] => true
  | [], _ :: _ => false
  | c :: s, d :: p => c = d && jsStartsWith s p

/-- Whitespace characters recognised by `String.prototype.trim`
(the ASCII ones; the sources only ever trim user-typed queries). -/
def isJsWS (c : Char) : Bool :=
  c = ' ' || c = '\t' || c = '\n' || c = '\r' || c = '\x0b' || c = '\x0c'

/-- JS `String.prototype.trim`. -/
def jsTrim (s : Str) : Str :=
  ((s.dropWhile isJsWS).reverse.dropWhile isJsWS).reverse

/-! ## `snippets.js` : `escapeHtml` -/

/-- JS `String.prototype.replace` with a global single-character pattern:
every occurrence of `c` is replaced by `r`. -/
def replaceEach (c : Char) (r : Str) : Str → Str
  | [] => []
  | ch :: rest => (if ch = c then r else [ch]) ++ replaceEach c r rest

def ampEnt : Str := "&amp;".toList
def ltEnt : Str := "&lt;".toList
def gtEnt : Str := "&gt;".toList
def quotEnt : Str := "&quot;".toList
def aposEnt : Str := "&#39;".toList

/-- Model of `escapeHtml` from `snippets.js`: `if (!str) return ''`, then the five
chained global replaces for `& < > " '` (in that order). -/
def escapeHtml (str : Str) : Str :=
  if str = [] then []
  else
    replaceEach '\'' aposEnt
      (replaceEach '"' quotEnt
        (replaceEach '>' gtEnt
          (replaceEach '<' ltEnt
            (replaceEach '&' ampEnt str))))

/-! ## `snippets.js` : `highlightMatches` -/

/-- Options of `highlightMatches` (`tag` defaults to `'mark'`,
`className` is optional). -/
structure HighlightOptions where
  tag : Str
  className : Option Str

def defaultHighlightOptions : HighlightOptions := ⟨"mark".toList, none⟩

/-- The `openTag` template string:
`` className ? `<${tag} class="${className}">` : `<${tag}>` ``. -/
def openTagOf (o : HighlightOptions) : Str :=
  match o.className with
  | some cn => '<' :: (o.tag ++ " class=\"".toList ++ cn ++ "\">".toList)
  | none => '<' :: (o.tag ++ ['>'])

/-- The `closeTag` template string `` `</${tag}>` ``. -/
def closeTagOf (o : HighlightOptions) : Str :=
  "</".toList ++ o.tag ++ ['>']

/-- Stable insertion of a span into an already-sorted list, placing the new
span after every span whose start is `≤` its own. -/
def insertSpan (p : Int × Int) : List (Int × Int) → List (Int × Int)
  | [] => [p]
  | q :: rest => if q.1 ≤ p.1 then q :: insertSpan p rest else p :: q :: rest

/-- The JS stable sort `[...indices].sort((a, b) => a[0] - b[0])`:
ascending by start offset, ties kept in input order. -/
def sortSpans (l : List (Int × Int)) : List (Int × Int) :=
  l.foldl (fun acc p => insertSpan p acc) []

/-- The body of the `for (const [start, end] of sortedIndices)` loop of
`highlightMatches`, together with the trailing
`if (cursor < text.length) html += escapeHtml(text.slice(cursor))`. -/
def highlightGo (text openT closeT : Str) : List (Int × Int) → Nat → Str
  | [], cursor =>
    if cursor < text.length then escapeHtml (jsSlice text cursor text.length) else []
  | (s, e) :: rest, cursor =>
    let safeStart := (max 0 (min s (text.length : Int))).toNat
    let safeEnd := (max 0 (min (e + 1) (text.length : Int))).toNat
    if safeStart ≥ safeEnd ∨ safeStart < cursor then
      highlightGo text openT closeT rest cursor
    else
      (if safeStart > cursor then escapeHtml (jsSlice text cursor safeStart) else [])
        ++ openT ++ escapeHtml (jsSlice text safeStart safeEnd) ++ closeT
        ++ highlightGo text openT closeT rest safeEnd

/-- Model of `highlightMatches` from `snippets.js`. -/
def highlightMatches (text : Str) (indices : List (Int × Int))
    (opts : HighlightOptions) : Str :=
  if text = [] ∨ indices = [] then escapeHtml text
  else highlightGo text (openTagOf opts) (closeTagOf opts) (sortSpans indices) 0

/-! ## `snippets.js` : `buildSnippet` -/

/-- One element of the Fuse.js `matches` array: the matched field name and its
inclusive `[start, end]` character spans (Fuse.js offsets are non-negative). -/
structure FieldMatch where
  key : Str
  indices : List (Nat × Nat)
deriving DecidableEq

/-- Options of `buildSnippet`, with the source's defaults. -/
structure SnippetOptions where
  key : Str
  maxLength : Nat
  contextChars : Nat
  highlightTag : Str

def defaultSnippetOptions : SnippetOptions :=
  ⟨"content".toList, 160, 60, "mark".toList⟩

/-- The single-character ellipsis marker `'…'`. -/
def ell : Str := ['…']

/-- The record `{ text, html }` returned by `buildSnippet`. -/
structure Snippet where
  text : Str
  html : Str
deriving DecidableEq

/-- The no-match branch of `buildSnippet`: truncate to `maxLength` characters
and append an ellipsis when the text was longer. -/
def truncateSnippet (text : Str) (maxLength : Nat) : Snippet :=
  let snippet := jsSlice text 0 maxLength
  let suffix := if text.length > maxLength then ell else []
  ⟨snippet ++ suffix, escapeHtml snippet ++ suffix⟩

/-- The with-match branch of `buildSnippet`: window extraction around the
first span, index remapping and filtering, highlighting, and the conditional
ellipsis markers. -/
def snippetMain (text : Str) (indices : List (Nat × Nat)) (s e : Nat)
    (opts : SnippetOptions) : Snippet :=
  let sliceStart : Int := max 0 ((s : Int) - (opts.contextChars : Int))
  let sliceEnd : Int := min (text.length : Int) ((e : Int) + (opts.contextChars : Int) + 1)
  let snippet := jsSlice text sliceStart.toNat sliceEnd.toNat
  let adjusted :=
    (indices.map (fun p => ((p.1 : Int) - sliceStart, (p.2 : Int) - sliceStart))).filter
      (fun p => decide (p.2 ≥ 0) && decide (p.1 < (snippet.length : Int)))
  let html := highlightMatches snippet adjusted ⟨opts.highlightTag, none⟩
  let pre := if sliceStart > 0 then ell else []
  let suf := if sliceEnd < (text.length : Int) then ell else []
  ⟨pre ++ snippet ++ suf, pre ++ html ++ suf⟩

/-- Dispatch of `buildSnippet` on the found key match: missing match or empty
`indices` take the truncation branch, otherwise the first span drives the
window. -/
def buildSnippetWith (text : Str) (keyMatch : Option FieldMatch)
    (opts : SnippetOptions) : Snippet :=
  match keyMatch with
  | none => truncateSnippet text opts.maxLength
  | some m =>
    match m.indices with
    | [] => truncateSnippet text opts.maxLength
    | (s, e) :: _ => snippetMain text m.indices s e opts

/-- Model of `buildSnippet` from `snippets.js` (`ms` is the JS `matches` argument). -/
def buildSnippet (text : Str) (ms : List FieldMatch)
    (opts : SnippetOptions) : Snippet :=
  if text = [] then ⟨[], []⟩
  else buildSnippetWith text (ms.find? (fun m => m.key = opts.key)) opts

/-! ## `Render.jsx` : content nodes -/

/-- Mark attributes: only `href` is ever read (`mark.attrs?.href`). -/
structure MarkAttrs where
  href : Option Str
deriving DecidableEq

/-- An inline mark `{ type, attrs? }`. -/
structure MarkRec where
  type : Str
  attrs : Option MarkAttrs
deriving DecidableEq

/-- Node attributes; exactly the `attrs` fields the renderer reads.  A field
that is absent on the JS object is `none`. -/
structure Attrs where
  level : Option Int
  src : Option Str
  alt : Option Str
  caption : Option Str
  type : Option Str
  language : Option Str
  summary : Option Str
  openFlag : Option Bool
  href : Option Str
  label : Option Str
deriving DecidableEq

/-- The all-absent attribute record. -/
def Attrs.empty : Attrs := ⟨none, none, none, none, none, none, none, none, none, none⟩

/-- A ProseMirror-style content node: either a raw string (arrays may contain
strings, which `extractText` returns as-is) or an object with optional
`type` / `attrs` / `text` / `marks` / `content` fields. -/
inductive JNode where
  | str (s : Str)
  | node (ty : Str) (attrs : Option Attrs) (text : Option Str)
      (marks : Option (List MarkRec)) (content : Option (List JNode))

/-! ## `Render.jsx` : `extractText` -/

mutual

/-- Model of `extractText` from `Render.jsx`: strings are returned as-is, a truthy
`node.text` is returned, otherwise a present `content` array is flattened
depth-first, and anything else contributes the empty string. -/
def extractText : JNode → Str
  | .str s => s
  | .node _ _ text _ content =>
    match text with
    | some t => if t = [] then extractChildren content else t
    | none => extractChildren content

/-- The expression `node.content ? node.content.map(extractText).join('') : ''`. -/
def extractChildren : Option (List JNode) → Str
  | none => []
  | some l => extractJoin l

/-- The expression `content.map(extractText).join('')`. -/
def extractJoin : List JNode → Str
  | [] => []
  | n :: rest => extractText n ++ extractJoin rest

end

/-! ## `Render.jsx` : `generateId` -/

/-- Membership in the regex class `[a-z0-9]`. -/
def isLowerAlnum (c : Char) : Bool :=
  ('a' ≤ c && c ≤ 'z') || ('0' ≤ c && c ≤ '9')

/-- The global replace `/[^a-z0-9]+/g → '-'`: every maximal run of characters
outside `[a-z0-9]` becomes a single hyphen.  The boolean records whether the
previous character was part of such a run. -/
def collapseRuns : Bool → Str → Str
  | _, [] => []
  | inRun, c :: rest =>
    if isLowerAlnum c then c :: collapseRuns false rest
    else if inRun then collapseRuns true rest
    else '-' :: collapseRuns true rest

/-- Drop a single leading hyphen (the `^-` alternative of `/^-|-$/g`). -/
def dropLeadHyphen : Str → Str
  | '-' :: rest => rest
  | s => s

/-- The global replace `/^-|-$/g → ''`: one leading and one trailing hyphen
are removed (after run-collapsing there is never more than one of each). -/
def trimHyphens (s : Str) : Str :=
  (dropLeadHyphen (dropLeadHyphen s).reverse).reverse

/-- Model of `generateId` from `Render.jsx`: lower-case, collapse non-alphanumeric
runs to single hyphens, trim boundary hyphens. -/
def generateId (text : Str) : Str :=
  trimHyphens (collapseRuns false (text.map Char.toLower))

/-! ## `Render.jsx` : mark stacking -/

def mtBold : Str := "bold".toList
def mtStrong : Str := "strong".toList
def mtItalic : Str := "italic".toList
def mtEm : Str := "em".toList
def mtCode : Str := "code".toList
def mtLink : Str := "link".toList

def strongOpen : Str := "<strong>".toList
def strongClose : Str := "</strong>".toList
def emOpen : Str := "<em>".toList
def emClose : Str := "</em>".toList
def codeOpen : Str := "<code class=\"px-1 py-0.5 bg-gray-100 rounded text-sm\">".toList
def codeClose : Str := "</code>".toList
def anchorPre : Str := "<a href=\"".toList
def anchorMid : Str := "\" class=\"text-blue-600 hover:underline\">".toList
def anchorClose : Str := "</a>".toList
def hashStr : Str := "#".toList

/-- The expression `mark.attrs?.href || '#'`. -/
def markHref (m : MarkRec) : Str :=
  match m.attrs with
  | some a => jsOr a.href hashStr
  | none => hashStr

/-- One iteration of the `node.marks.forEach` switch: wrap the current string
according to the mark type; unknown mark types leave it unchanged. -/
def applyMark (text : Str) (m : MarkRec) : Str :=
  if m.type = mtBold ∨ m.type = mtStrong then strongOpen ++ text ++ strongClose
  else if m.type = mtItalic ∨ m.type = mtEm then emOpen ++ text ++ emClose
  else if m.type = mtCode then codeOpen ++ text ++ codeClose
  else if m.type = mtLink then anchorPre ++ markHref m ++ anchorMid ++ text ++ anchorClose
  else text

/-- The whole `forEach` loop: marks applied in array order, each wrapping the
current string. -/
def applyMarks (text : Str) (marks : List MarkRec) : Str :=
  marks.foldl applyMark text

/-! ## `Render.jsx` : `RenderNode` and `Render` -/

/-- One rendered output unit.  Each constructor records the concrete props the
source passes to the corresponding element/child component; `none` children
are the `null`s React skips. -/
inductive Rendered where
  | p (html : Str)
  | heading (level : Int) (id : Str) (text : Str)
  | figure (src alt : Str) (caption : Option Str)
  | media (src : Str)
  | codeBlock (code language : Str)
  | alert (type content : Str)
  | blockquote (children : List (Option Rendered))
  | list (ordered : Bool) (items : List (List (Option Rendered)))
  | table (content : Option (List JNode))
  | details (summary body : Str) (openFlag : Option Bool)
  | divider (type : Option Str)
  | button (href label : Str)
  | inline (html : Str)
  | fragment (children : List (Option Rendered))

def tyParagraph : Str := "paragraph".toList
def tyHeading : Str := "heading".toList
def tyImage : Str := "image".toList
def tyVideo : Str := "video".toList
def tyCodeBlock : Str := "codeBlock".toList
def tyWarning : Str := "warning".toList
def tyAlert : Str := "alert".toList
def tyBlockquote : Str := "blockquote".toList
def tyBulletList : Str := "bulletList".toList
def tyOrderedList : Str := "orderedList".toList
def tyTable : Str := "table".toList
def tyDetails : Str := "details".toList
def tyHorizontalRule : Str := "horizontalRule".toList
def tyDivider : Str := "divider".toList
def tyButton : Str := "button".toList
def tyText : Str := "text".toList

def sInfo : Str := "info".toList
def sPlaintext : Str := "plaintext".toList
def sDetails : Str := "Details".toList
def sButton : Str := "Button".toList

/-- The statement `const level = attrs?.level || 1` (a `level` of `0` is falsy). -/
def levelOf (attrs : Option Attrs) : Int :=
  match attrs with
  | some a =>
    match a.level with
    | some l => if l = 0 then 1 else l
    | none => 1
  | none => 1

/-- Optional string attribute lookup `attrs?.f`. -/
def attrStr (attrs : Option Attrs) (f : Attrs → Option Str) : Option Str :=
  match attrs with
  | some a => f a
  | none => none

mutual

/-- Model of `RenderNode` from `Render.jsx`: per-type dispatch on `node.type`.  A raw
string has no `type`/`content` and falls to the default branch, yielding
`null`. -/
def RenderNode : JNode → Option Rendered
  | .str _ => none
  | .node ty attrs text marks content =>
    if ty = tyParagraph then
      let html := extractText (.node ty attrs text marks content)
      if html = [] then none else some (.p html)
    else if ty = tyHeading then
      let level := levelOf attrs
      let t := extractText (.node ty attrs text marks content)
      some (.heading (min level 6) (generateId t) t)
    else if ty = tyImage then
      let src := jsOr (attrStr attrs Attrs.src) []
      let alt := jsOr (attrStr attrs Attrs.alt) []
      let caption := jsOr (attrStr attrs Attrs.caption) []
      some (.figure src alt (if caption = [] then none else some caption))
    else if ty = tyVideo then
      some (.media (jsOr (attrStr attrs Attrs.src) []))
    else if ty = tyCodeBlock then
      some (.codeBlock (extractText (.node ty attrs text marks content))
        (jsOr (attrStr attrs Attrs.language) sPlaintext))
    else if ty = tyWarning ∨ ty = tyAlert then
      some (.alert (jsOr (attrStr attrs Attrs.type) sInfo) (extractChildren content))
    else if ty = tyBlockquote then
      some (.blockquote (renderChildren content))
    else if ty = tyBulletList then
      some (.list false (renderItems content))
    else if ty = tyOrderedList then
      some (.list true (renderItems content))
    else if ty = tyTable then
      some (.table content)
    else if ty = tyDetails then
      some (.details (jsOr (attrStr attrs Attrs.summary) sDetails)
        (extractChildren content)
        (match attrs with | some a => a.openFlag | none => none))
    else if ty = tyHorizontalRule ∨ ty = tyDivider then
      some (.divider (attrStr attrs Attrs.type))
    else if ty = tyButton then
      let href := jsOr (attrStr attrs Attrs.href) hashStr
      let label :=
        jsOr (some (extractText (.node ty attrs text marks content)))
          (jsOr (attrStr attrs Attrs.label) sButton)
      some (.button href label)
    else if ty = tyText then
      let t := jsOr text []
      some (.inline (match marks with | some ms => applyMarks t ms | none => t))
    else
      match content with
      | some l => some (.fragment (renderList l))
      | none => none

/-- The expression `content?.map((child, i) => <RenderNode node={child} />)`. -/
def renderChildren : Option (List JNode) → List (Option Rendered)
  | none => []
  | some l => renderList l

/-- The expression `nodes.map(RenderNode)`. -/
def renderList : List JNode → List (Option Rendered)
  | [] => []
  | n :: rest => RenderNode n :: renderList rest

/-- Model of `renderList` (the helper of that name in `Render.jsx`): each list item
contributes its rendered `item.content` children. -/
def renderItems : Option (List JNode) → List (List (Option Rendered))
  | none => []
  | some l => renderItemsGo l

def renderItemsGo : List JNode → List (List (Option Rendered))
  | [] => []
  | .str _ :: rest => renderChildren none :: renderItemsGo rest
  | .node _ _ _ _ c :: rest => renderChildren c :: renderItemsGo rest

end

/-- The argument of `Render`: a single node or an array of nodes (the source
distinguishes them with `Array.isArray`). -/
inductive ContentInput where
  | one (n : JNode)
  | many (l : List JNode)

/-- The wrapper `<div className={cn('space-y-4', className)}>` with the
rendered top-level nodes as children. -/
structure Container where
  children : List (Option Rendered)

/-- Model of `Render` from `Render.jsx`: `null` input yields `null`; otherwise every
top-level node is rendered, in order, inside the wrapper `div`. -/
def Render : Option ContentInput → Option Container
  | none => none
  | some (.one n) => some ⟨[RenderNode n]⟩
  | some (.many l) => some ⟨renderList l⟩

/-! ## `search.js` : data model -/

/-- One entry of the fetched search index. -/
structure Entry where
  id : Str
  type : Str
  route : Str
  sectionId : Option Str
  anchor : Option Str
  title : Str
  pageTitle : Option Str
  description : Option Str
  excerpt : Option Str
  content : Str
  component : Option Str

/-- The JSON payload of an index: the only field the source inspects
structurally is `entries` (`Array.isArray(parsed.entries)`,
`index.entries || []`); a payload whose `entries` is not an array is
modelled with `entries = none`. -/
structure Payload where
  entries : Option (List Entry)

/-- A raw value in the durable store: either syntactically invalid JSON
(`JSON.parse` throws) or a parsed payload. -/
inductive Stored where
  | corrupt
  | value (p : Payload)

/-- The `localStorage` backing store: its items keyed by string, plus a flag
making `setItem` throw (quota exceeded). -/
structure Store where
  items : List (Str × Stored)
  writeFails : Bool

/-- A built Fuse.js instance: the entries it was constructed over and the
opaque search behaviour of the external library. -/
structure Fuse where
  entries : List Entry
  searchHits : Str → List (Entry × List FieldMatch)

/-- Result of `fetch(indexUrl)`: rejection, or a response with its `ok` flag,
status and JSON body. -/
inductive FetchResult where
  | netError
  | resp (ok : Bool) (status : Nat) (body : Payload)

/-- The ambient capabilities of the search module: the network, whether the
`fuse.js` dynamic import succeeds, and the external Fuse constructor. -/
structure Env where
  fetch : Str → FetchResult
  fuseAvailable : Bool
  makeFuse : List Entry → Fuse

/-- The module-level mutable state: the two in-memory caches and
`localStorage` (absent under SSR or when access throws). -/
structure World where
  indexCache : List (Str × Payload)
  fuseCache : List (Str × Fuse)
  storage : Option Store

/-- Errors a search operation can reject with. -/
inductive SearchErr where
  | network
  | http (status : Nat)
  | fuseMissing
deriving DecidableEq

/-! Association-list operations standing in for `Map.get`/`Map.set`/
`Map.delete` and the storage item table. -/

/-- Lookup by key. -/
def alookup (k : Str) : List (Str × α) → Option α
  | [] => none
  | (k', v) :: rest => if k' = k then some v else alookup k rest

/-- Insert-or-replace by key. -/
def aset (k : Str) (v : α) : List (Str × α) → List (Str × α)
  | [] => [(k, v)]
  | (k', v') :: rest => if k' = k then (k, v) :: rest else (k', v') :: aset k v rest

/-- Remove a key. -/
def adel (k : Str) : List (Str × α) → List (Str × α)
  | [] => []
  | (k', v') :: rest => if k' = k then rest else (k', v') :: adel k rest

/-- The constant `STORAGE_PREFIX` of `search.js` with
`STORAGE_VERSION = 'v1'`. -/
def storageNS : Str := "uniweb:search:v1:".toList

/-! ## `search.js` : storage layer -/

/-- Model of `loadFromStorage` from `search.js`: no storage, missing item, corrupt
JSON, or a payload whose `entries` is not an array all yield `null`. -/
def loadFromStorage (cacheKey : Str) (w : World) : Option Payload :=
  match w.storage with
  | none => none
  | some store =>
    match alookup (storageNS ++ cacheKey) store.items with
    | none => none
    | some .corrupt => none
    | some (.value p) =>
      match p.entries with
      | some _ => some p
      | none => none

/-- Model of `saveToStorage` from `search.js`: a missing store or a throwing `setItem`
leaves the world unchanged (the quota error is swallowed). -/
def saveToStorage (cacheKey : Str) (payload : Payload) (w : World) : World :=
  match w.storage with
  | none => w
  | some store =>
    if store.writeFails then w
    else
      let store1 : Store := { store with items := aset (storageNS ++ cacheKey) (.value payload) store.items }
      { w with storage := some store1 }

/-! ## `search.js` : `loadSearchIndex` -/

/-- Outcome of an asynchronous operation: its settled value, the updated
module state, and the list of URLs passed to `fetch` during the call. -/
structure Out (α : Type) where
  res : Except SearchErr α
  world : World
  fetched : List Str

/-- Model of `loadSearchIndex` from `search.js`: memory cache, then (optionally) the
durable store, then the network; a non-`ok` response throws, a successful
body populates both caches. -/
def loadSearchIndex (env : Env) (indexUrl cacheKey : Str) (useStorage : Bool)
    (w : World) : Out Payload :=
  match alookup cacheKey w.indexCache with
  | some p => ⟨.ok p, w, []⟩
  | none =>
    match (if useStorage then loadFromStorage cacheKey w else none) with
    | some cached => ⟨.ok cached, { w with indexCache := aset cacheKey cached w.indexCache }, []⟩
    | none =>
      match env.fetch indexUrl with
      | .netError => ⟨.error .network, w, [indexUrl]⟩
      | .resp ok status body =>
        if ok then
          let w1 := { w with indexCache := aset cacheKey body w.indexCache }
          let w2 := if useStorage then saveToStorage cacheKey body w1 else w1
          ⟨.ok body, w2, [indexUrl]⟩
        else ⟨.error (.http status), w, [indexUrl]⟩

/-! ## `search.js` : `clearSearchCache` -/

/-- Model of `clearSearchCache` from `search.js`.  A truthy key clears that key from
both in-memory caches and removes its namespaced durable item; otherwise both
maps are cleared and every durable item whose key starts with the namespace
prefix is removed. -/
def clearSearchCache (cacheKey : Option Str) (w : World) : World :=
  if (match cacheKey with | some k => k ≠ [] | none => false : Bool) then
    let k := cacheKey.getD []
    { indexCache := adel k w.indexCache
      fuseCache := adel k w.fuseCache
      storage :=
        match w.storage with
        | none => none
        | some store => some ({ store with items := adel (storageNS ++ k) store.items }) }
  else
    { indexCache := []
      fuseCache := []
      storage :=
        match w.storage with
        | none => none
        | some store =>
          some ({ store with items :=
            store.items.filter (fun kv => ! jsStartsWith kv.1 storageNS) }) }

/-! ## `search.js` : `createSearchClient` -/

/-- The `website` argument: the two capabilities `query`/`preload` consult. -/
structure Website where
  searchEnabled : Bool
  searchIndexUrl : Str

/-- Client construction options (`fuseOptions` only parameterises the
external library and is irrelevant to every modelled observable). -/
structure ClientOptions where
  useStorage : Bool
  defaultLimit : Nat

def defaultClientOptions : ClientOptions := ⟨true, 10⟩

/-- Model of `getFuse` from `search.js`: the fuse cache keyed by the resolved index
URL, the index load, the dynamic `import('fuse.js')`, and `new Fuse(...)`. -/
def getFuse (env : Env) (website : Website) (useStorage : Bool) (w : World) : Out Fuse :=
  let indexUrl := website.searchIndexUrl
  let cacheKey := indexUrl
  match alookup cacheKey w.fuseCache with
  | some f => ⟨.ok f, w, []⟩
  | none =>
    match loadSearchIndex env indexUrl cacheKey useStorage w with
    | ⟨.error err, w1, fs⟩ => ⟨.error err, w1, fs⟩
    | ⟨.ok index, w1, fs⟩ =>
      if env.fuseAvailable then
        let fuse := env.makeFuse (index.entries.getD [])
        ⟨.ok fuse, { w1 with fuseCache := aset cacheKey fuse w1.fuseCache }, fs⟩
      else ⟨.error .fuseMissing, w1, fs⟩

/-- One search result as projected by `query`. -/
structure SResult where
  id : Str
  type : Str
  route : Str
  sectionId : Option Str
  anchor : Option Str
  href : Str
  title : Str
  pageTitle : Option Str
  description : Option Str
  excerpt : Option Str
  component : Option Str
  snippetText : Str
  snippetHtml : Str
  matchList : List FieldMatch

/-- The result projection inside `query`'s final `map`: the snippet from the
entry's `content`, and `href = item.anchor ? `${item.route}#${item.anchor}` :
item.route`. -/
def projectResult (item : Entry) (ms : List FieldMatch) : SResult :=
  let snippet := buildSnippet item.content ms defaultSnippetOptions
  { id := item.id
    type := item.type
    route := item.route
    sectionId := item.sectionId
    anchor := item.anchor
    href :=
      match item.anchor with
      | some a => if a = [] then item.route else item.route ++ hashStr ++ a
      | none => item.route
    title := item.title
    pageTitle := item.pageTitle
    description := item.description
    excerpt := item.excerpt
    component := item.component
    snippetText := snippet.text
    snippetHtml := snippet.html
    matchList := ms }

/-- Per-call options of `query` (`limit` defaults to the client's
`defaultLimit`; falsy `type`/`route` filters are skipped). -/
structure QueryOptions where
  limit : Option Nat
  type : Option Str
  route : Option Str

def defaultQueryOptions : QueryOptions := ⟨none, none, none⟩

/-- Outcome of `query`: settled value, state, fetch trace, and whether
`console.warn` fired. -/
structure QueryOut where
  res : Except SearchErr (List SResult)
  world : World
  fetched : List Str
  warned : Bool

/-- The `query` method of `createSearchClient`: trim, the empty and disabled
short-circuits, `getFuse`, the fuzzy search, the `type`/`route` filters, the
limit, and the result projection. -/
def query (env : Env) (website : Website) (copts : ClientOptions) (q : Str)
    (qopts : QueryOptions) (w : World) : QueryOut :=
  let trimmed := jsTrim q
  if trimmed = [] then ⟨.ok [], w, [], false⟩
  else if ¬ website.searchEnabled then ⟨.ok [], w, [], true⟩
  else
    match getFuse env website copts.useStorage w with
    | ⟨.error err, w1, fs⟩ => ⟨.error err, w1, fs, false⟩
    | ⟨.ok fuse, w1, fs⟩ =>
      let results := fuse.searchHits trimmed
      let results :=
        match qopts.type with
        | some t => if t = [] then results else results.filter (fun h => h.1.type = t)
        | none => results
      let results :=
        match qopts.route with
        | some r => if r = [] then results else results.filter (fun h => jsStartsWith h.1.route r)
        | none => results
      let limited := results.take (qopts.limit.getD copts.defaultLimit)
      ⟨.ok (limited.map (fun h => projectResult h.1 h.2)), w1, fs, false⟩

/-- The `preload` method: a no-op when search is disabled, otherwise
`getFuse` for its side effects. -/
def preload (env : Env) (website : Website) (copts : ClientOptions)
    (w : World) : Out Unit :=
  if ¬ website.searchEnabled then ⟨.ok (), w, []⟩
  else
    match getFuse env website copts.useStorage w with
    | ⟨.error err, w1, fs⟩ => ⟨.error err, w1, fs⟩
    | ⟨.ok _, w1, fs⟩ => ⟨.ok (), w1, fs⟩

/-! ## Specification-side decomposition of `highlightMatches`

To state that the highlighter escapes every literal fragment and never the
tag wrapper itself, the emission loop is re-expressed as a list of segments
(literal or highlighted), each rendered through `escapeHtml` with the raw
wrapper around highlighted segments only. -/

/-- A fragment of highlighter output: literal text between/after spans, or
the text of one highlighted span. -/
inductive Seg where
  | lit (s : Str)
  | hl (s : Str)

/-- Rendering of one segment: literals are escaped and emitted bare; a
highlighted span is escaped and wrapped in the raw (unescaped) tag pair. -/
def renderSeg (openT closeT : Str) : Seg → Str
  | .lit s => escapeHtml s
  | .hl s => openT ++ escapeHtml s ++ closeT

def renderSegs (openT closeT : Str) : List Seg → Str
  | [] => []
  | sg :: rest => renderSeg openT closeT sg ++ renderSegs openT closeT rest

/-- The segment stream produced by the emission loop of `highlightMatches`,
with the same clamping and skip conditions as `highlightGo`. -/
def segGo (text : Str) : List (Int × Int) → Nat → List Seg
  | [], cursor =>
    if cursor < text.length then [.lit (jsSlice text cursor text.length)] else []
  | (s, e) :: rest, cursor =>
    let safeStart := (max 0 (min s (text.length : Int))).toNat
    let safeEnd := (max 0 (min (e + 1) (text.length : Int))).toNat
    if safeStart ≥ safeEnd ∨ safeStart < cursor then segGo text rest cursor
    else
      (if safeStart > cursor then [Seg.lit (jsSlice text cursor safeStart)] else [])
        ++ [Seg.hl (jsSlice text safeStart safeEnd)] ++ segGo text rest safeEnd

/-- The segment stream of a whole `highlightMatches` call. -/
def highlightSegs (text : Str) (indices : List (Int × Int)) : List Seg :=
  if text = [] ∨ indices = [] then [.lit text]
  else segGo text (sortSpans indices) 0

theorem renderSegs_append (openT closeT : Str) (a b : List Seg) :
    renderSegs openT closeT (a ++ b)
      = renderSegs openT closeT a ++ renderSegs openT closeT b := by
  induction a with
  | nil => simp [renderSegs]
  | cons sg rest ih => simp [renderSegs, ih]

theorem highlightGo_eq_renderSegs (text openT closeT : Str) :
    ∀ (l : List (Int × Int)) (cursor : Nat),
      highlightGo text openT closeT l cursor
        = renderSegs openT closeT (segGo text l cursor) := by
  intro l
  induction l with
  | nil =>
    intro cursor
    by_cases h : cursor < text.length
    · simp [highlightGo, segGo, h, renderSegs, renderSeg]
    · simp [highlightGo, segGo, h, renderSegs]
  | cons p rest ih =>
    intro cursor
    obtain ⟨s, e⟩ := p
    simp only [highlightGo, segGo]
    by_cases h : (max 0 (min s (text.length : Int))).toNat
          ≥ (max 0 (min (e + 1) (text.length : Int))).toNat
        ∨ (max 0 (min s (text.length : Int))).toNat < cursor
    · rw [if_pos h, if_pos h, ih]
    · rw [if_neg h, if_neg h]
      rw [renderSegs_append, renderSegs_append, ih]
      by_cases hgt : (max 0 (min s (text.length : Int))).toNat > cursor
      · simp [hgt, renderSegs, renderSeg, List.append_assoc]
      · simp [hgt, renderSegs, renderSeg, List.append_assoc]

/-- Every `highlightMatches` output is the concatenation of rendered
segments. -/
theorem highlightMatches_eq_renderSegs (text : Str) (indices : List (Int × Int))
    (opts : HighlightOptions) :
    highlightMatches text indices opts
      = renderSegs (openTagOf opts) (closeTagOf opts) (highlightSegs text indices) := by
  unfold highlightMatches highlightSegs
  by_cases h : text = [] ∨ indices = []
  · simp [h, renderSegs, renderSeg]
  · simp only [h, if_neg, ite_false]
    exact highlightGo_eq_renderSegs text (openTagOf opts) (closeTagOf opts) (sortSpans indices) 0

/-- C5. `highlightMatches` escapes every literal fragment it emits and never
the tag wrapper: its output is the concatenation of segments where every
literal (pre-span, in-span, trailing) goes through `escapeHtml` and only the
highlighted segments are surrounded by the raw tag pair (first conjunct).  A
span whose clamped start would move the cursor backward is skipped entirely
(second conjunct).  Concretely, `highlightMatches("5 > 3", [[0,0]])` wraps
the `5` in the highlight tag and escapes the literal `>` of the remainder,
producing `<mark>5</mark> &gt; 3` with no raw angle bracket outside the tag
(third conjunct). -/
theorem highlight_escaping :
    (∀ (text : Str) (indices : List (Int × Int)) (opts : HighlightOptions),
      highlightMatches text indices opts
        = renderSegs (openTagOf opts) (closeTagOf opts) (highlightSegs text indices))
    ∧ (∀ (text openT closeT : Str) (s e : Int) (rest : List (Int × Int)) (cursor : Nat),
        (max 0 (min s (text.length : Int))).toNat < cursor →
        highlightGo text openT closeT ((s, e) :: rest) cursor
          = highlightGo text openT closeT rest cursor)
    ∧ highlightMatches ("5 > 3").toList [(0, 0)] defaultHighlightOptions
        = ("<mark>5</mark> &gt; 3").toList := by
  refine ⟨highlightMatches_eq_renderSegs, ?_, by decide⟩
  intro text openT closeT s e rest cursor h
  simp only [highlightGo]
  rw [if_pos (Or.inr h)]

/-- Witness for C5: the skip clause applied at a concrete backward span, and
the decomposition clause at the concrete example. -/
theorem highlight_escaping_witness :
    highlightGo ("abc").toList [] [] [((1 : Int), (2 : Int))] 2
        = highlightGo ("abc").toList [] [] [] 2
      ∧ highlightMatches ("ab").toList [(0, 0)] defaultHighlightOptions
        = renderSegs (openTagOf defaultHighlightOptions)
            (closeTagOf defaultHighlightOptions)
            (highlightSegs ("ab").toList [(0, 0)]) :=
  ⟨highlight_escaping.2.1 ("abc").toList [] [] 1 2 [] 2 (by decide),
   highlight_escaping.1 ("ab").toList [(0, 0)] defaultHighlightOptions⟩

/-! ## Window and span-filter characterisation of `buildSnippet` -/

/-- The expression `Math.max(0, firstStart - contextChars)`. -/
def windowStart (s ctx : Nat) : Int := max 0 ((s : Int) - (ctx : Int))

/-- The expression `Math.min(text.length, firstEnd + contextChars + 1)`. -/
def windowEnd (textLen e ctx : Nat) : Int :=
  min (textLen : Int) ((e : Int) + (ctx : Int) + 1)

/-- The extracted snippet substring `text.slice(sliceStart, sliceEnd)`. -/
def windowOf (text : Str) (s e ctx : Nat) : Str :=
  jsSlice text (windowStart s ctx).toNat (windowEnd text.length e ctx).toNat

/-- The spans that survive remapping into window-relative coordinates:
shifted by the window start and filtered by
`end >= 0 && start < snippet.length`. -/
def keptSpans (indices : List (Nat × Nat)) (text : Str) (s e ctx : Nat) :
    List (Int × Int) :=
  (indices.map (fun p => ((p.1 : Int) - windowStart s ctx, (p.2 : Int) - windowStart s ctx))).filter
    (fun p => decide (p.2 ≥ 0) && decide (p.1 < ((windowOf text s e ctx).length : Int)))

/-- The leading ellipsis, present iff the window does not start at offset 0. -/
def preEll (s ctx : Nat) : Str := if 0 < windowStart s ctx then ell else []

/-- The trailing ellipsis, present iff the window ends before the text does. -/
def sufEll (textLen e ctx : Nat) : Str :=
  if windowEnd textLen e ctx < (textLen : Int) then ell else []

theorem snippetMain_eq (text : Str) (indices : List (Nat × Nat)) (s e : Nat)
    (opts : SnippetOptions) :
    snippetMain text indices s e opts =
      ⟨preEll s opts.contextChars
         ++ windowOf text s e opts.contextChars
         ++ sufEll text.length e opts.contextChars,
       preEll s opts.contextChars
         ++ highlightMatches (windowOf text s e opts.contextChars)
              (keptSpans indices text s e opts.contextChars)
              ⟨opts.highlightTag, none⟩
         ++ sufEll text.length e opts.contextChars⟩ := rfl

theorem buildSnippet_eq_main (text : Str) (ms : List FieldMatch)
    (opts : SnippetOptions) (m : FieldMatch) (s e : Nat) (rest : List (Nat × Nat))
    (htext : text ≠ [])
    (hfind : ms.find? (fun mm => mm.key = opts.key) = some m)
    (hidx : m.indices = (s, e) :: rest) :
    buildSnippet text ms opts = snippetMain text m.indices s e opts := by
  simp only [buildSnippet, if_neg htext, hfind, buildSnippetWith, hidx]

set_option maxRecDepth 200000 in
/-- C3. For every non-empty text with a first match span for the requested
key, `buildSnippet` extracts the window
`[max(0, firstStart − contextChars), min(length, firstEnd + contextChars + 1))`
and puts an ellipsis marker before/after both `text` and `html` exactly when
the window does not start at 0 / does not end at the text's length (first
conjunct).  In particular, for a 500-character text with match span
`[240, 250]` and `contextChars = 60` the window is `[180, 311)` and both
outputs begin and end with the ellipsis marker (remaining conjuncts). -/
theorem snippet_window_ellipsis :
    (∀ (text : Str) (ms : List FieldMatch) (opts : SnippetOptions) (m : FieldMatch)
        (s e : Nat) (rest : List (Nat × Nat)),
      text ≠ [] →
      ms.find? (fun mm => mm.key = opts.key) = some m →
      m.indices = (s, e) :: rest →
      buildSnippet text ms opts =
        ⟨preEll s opts.contextChars
           ++ windowOf text s e opts.contextChars
           ++ sufEll text.length e opts.contextChars,
         preEll s opts.contextChars
           ++ highlightMatches (windowOf text s e opts.contextChars)
                (keptSpans m.indices text s e opts.contextChars)
                ⟨opts.highlightTag, none⟩
           ++ sufEll text.length e opts.contextChars⟩)
    ∧ windowStart 240 60 = 180
    ∧ windowEnd 500 250 60 = 311
    ∧ (buildSnippet (List.replicate 500 'a') [⟨("content").toList, [(240, 250)]⟩]
          defaultSnippetOptions).text
        = ell ++ jsSlice (List.replicate 500 'a') 180 311 ++ ell
    ∧ (buildSnippet (List.replicate 500 'a') [⟨("content").toList, [(240, 250)]⟩]
          defaultSnippetOptions).html.take 1 = ell
    ∧ (buildSnippet (List.replicate 500 'a') [⟨("content").toList, [(240, 250)]⟩]
          defaultSnippetOptions).html.reverse.take 1 = ell := by
  refine ⟨?_, by decide, by decide, by decide, by decide, by decide⟩
  intro text ms opts m s e rest htext hfind hidx
  rw [buildSnippet_eq_main text ms opts m s e rest htext hfind hidx, snippetMain_eq]

/-- Witness for C3: the windowing clause applied at a concrete input. -/
theorem snippet_window_ellipsis_witness :
    buildSnippet ("abcdefgh").toList [⟨("content").toList, [(2, 3)]⟩]
        ⟨("content").toList, 160, 1, ("mark").toList⟩
      = ⟨preEll 2 1 ++ windowOf ("abcdefgh").toList 2 3 1 ++ sufEll 8 3 1,
         preEll 2 1
           ++ highlightMatches (windowOf ("abcdefgh").toList 2 3 1)
                (keptSpans [(2, 3)] ("abcdefgh").toList 2 3 1)
                ⟨("mark").toList, none⟩
           ++ sufEll 8 3 1⟩ :=
  snippet_window_ellipsis.1 ("abcdefgh").toList [⟨("content").toList, [(2, 3)]⟩]
    ⟨("content").toList, 160, 1, ("mark").toList⟩ ⟨("content").toList, [(2, 3)]⟩
    2 3 [] (by decide) (by decide) rfl

/-- C4. After remapping every span by subtracting the window start, the
filter keeps exactly the spans satisfying `end ≥ 0 ∧ start < windowLength`:
any span with a negative adjusted end or an adjusted start at or past the
window length is discarded (first two conjuncts), every surviving span is in
range (third conjunct), and the snippet HTML is built from the surviving
spans only — discarded spans are gone before `highlightMatches` sorts and
renders (fourth conjunct). -/
theorem snippet_span_filtering :
    ∀ (text : Str) (ms : List FieldMatch) (opts : SnippetOptions) (m : FieldMatch)
      (s e : Nat) (rest : List (Nat × Nat)),
      text ≠ [] →
      ms.find? (fun mm => mm.key = opts.key) = some m →
      m.indices = (s, e) :: rest →
      (∀ q : Int × Int, q.2 < 0 → q ∉ keptSpans m.indices text s e opts.contextChars)
      ∧ (∀ q : Int × Int, ((windowOf text s e opts.contextChars).length : Int) ≤ q.1 →
          q ∉ keptSpans m.indices text s e opts.contextChars)
      ∧ (∀ q ∈ keptSpans m.indices text s e opts.contextChars,
          0 ≤ q.2 ∧ q.1 < ((windowOf text s e opts.contextChars).length : Int))
      ∧ (buildSnippet text ms opts).html
          = preEll s opts.contextChars
            ++ highlightMatches (windowOf text s e opts.contextChars)
                 (keptSpans m.indices text s e opts.contextChars)
                 ⟨opts.highlightTag, none⟩
            ++ sufEll text.length e opts.contextChars := by
  intro text ms opts m s e rest htext hfind hidx
  refine ⟨?_, ?_, ?_, ?_⟩
  · intro q hneg hmem
    have := (List.mem_filter.mp hmem).2
    simp only [Bool.and_eq_true, decide_eq_true_eq] at this
    omega
  · intro q hge hmem
    have := (List.mem_filter.mp hmem).2
    simp only [Bool.and_eq_true, decide_eq_true_eq] at this
    omega
  · intro q hmem
    have := (List.mem_filter.mp hmem).2
    simp only [Bool.and_eq_true, decide_eq_true_eq] at this
    omega
  · rw [buildSnippet_eq_main text ms opts m s e rest htext hfind hidx, snippetMain_eq]

/-- Witness for C4: a span ending before the window (adjusted end `−1 < 0`)
is absent from the kept spans of a concrete call. -/
theorem snippet_span_filtering_witness :
    ((-3 : Int), (-1 : Int)) ∉ keptSpans [(2, 4), (0, 1)] ("abcdefgh").toList 2 4 0 :=
  (snippet_span_filtering ("abcdefgh").toList [⟨("content").toList, [(2, 4), (0, 1)]⟩]
      ⟨("content").toList, 160, 0, ("mark").toList⟩ ⟨("content").toList, [(2, 4), (0, 1)]⟩
      2 4 [(0, 1)] (by decide) (by decide) rfl).1 ((-3 : Int), (-1 : Int)) (by decide)

/-! ## Renderer claims -/

/-- A text leaf whose text is a single space: its flattened text is
whitespace-only and non-empty. -/
def wsTextNode : JNode := .node tyText none (some [' ']) none none

/-- A paragraph node whose flattened descendant text is `" "`. -/
def wsParagraph : JNode := .node tyParagraph none none none (some [wsTextNode])

/-- C1 counterexample.  The paragraph branch tests `if (!html)`, which catches
only the empty string: a paragraph whose flattened text is the single space
`" "` (whitespace-only and non-empty, first conjunct) renders as a paragraph
unit rather than nothing (second conjunct), and `Render` applied to an empty
node array returns the wrapper container with zero children — a non-null
empty container (third conjunct). -/
theorem paragraph_whitespace_counterexample :
    (extractText wsParagraph = [' '] ∧ (extractText wsParagraph).all isJsWS = true)
    ∧ RenderNode wsParagraph ≠ none
    ∧ Render (some (.many [])) = some ⟨[]⟩ := by
  refine ⟨by decide, ?_, ?_⟩
  · rw [wsParagraph, wsTextNode, RenderNode]
    simp +decide
  · rw [Render]
    rw [renderList]

/-- C1 as amended: only a paragraph whose flattened descendant text is the
empty string produces no output unit (first conjunct); a whitespace-only
paragraph produces a paragraph unit wrapping the whitespace (second
conjunct); and `Render` of an empty node sequence produces the wrapper
container with zero child units rather than nothing (third conjunct). -/
theorem paragraph_empty_text_renders_nothing :
    (∀ (a : Option Attrs) (t : Option Str) (mk : Option (List MarkRec))
        (c : Option (List JNode)),
      extractText (.node tyParagraph a t mk c) = [] →
      RenderNode (.node tyParagraph a t mk c) = none)
    ∧ RenderNode wsParagraph = some (.p [' '])
    ∧ Render (some (.many [])) = some ⟨[]⟩ := by
  refine ⟨?_, ?_, ?_⟩
  · intro a t mk c h
    rw [RenderNode.eq_def]
    simp +decide [h]
  · rw [wsParagraph, wsTextNode, RenderNode]
    simp +decide
  · rw [Render]
    rw [renderList]

/-- Witness for C1: a paragraph around an empty content list renders as
nothing. -/
theorem paragraph_empty_text_witness :
    RenderNode (.node tyParagraph none none none (some [])) = none :=
  paragraph_empty_text_renders_nothing.1 none none none (some []) (by decide)

/-- The `bold` mark. -/
def boldMark : MarkRec := ⟨mtBold, none⟩

/-- A `link` mark with `attrs.href = "/a"`. -/
def linkMarkA : MarkRec := ⟨mtLink, some ⟨some ("/a").toList⟩⟩

/-- The text node `"x"` with marks `[bold, link(href="/a")]`, in that order. -/
def xBoldLink : JNode := .node tyText none (some ['x']) (some [boldMark, linkMarkA]) none

/-- The same text node with the marks array reversed. -/
def xLinkBold : JNode := .node tyText none (some ['x']) (some [linkMarkA, boldMark]) none

/-- C2 counterexample.  The link wrapper emitted by the renderer carries a
fixed `class` attribute, so the node `"x"` with marks `[bold, link("/a")]`
does not render to the bare `<a href="/a"><strong>x</strong></a>` the claim
states. -/
theorem mark_stacking_counterexample :
    RenderNode xBoldLink
      ≠ some (.inline ("<a href=\"/a\"><strong>x</strong></a>").toList) := by
  rw [xBoldLink, RenderNode]
  simp +decide

/-- C2 as amended: marks are applied in array order, each wrapping the
current string (first conjunct); bold/strong, italic/em, code and link marks
wrap in the corresponding tag — the code and anchor wrappers carrying the
renderer's fixed class attributes, the anchor using `mark.attrs.href` with
`'#'` as default (conjuncts 2–6) — and unknown mark types leave the string
unchanged (conjunct 7).  In particular `"x"` with `[bold, link("/a")]`
renders with the link wrapping the bold output,
`<a href="/a" class="text-blue-600 hover:underline"><strong>x</strong></a>`,
and reordering the two marks changes the output nesting (final conjuncts). -/
theorem mark_stacking_order :
    (∀ (t : Str) (ms : List MarkRec) (m : MarkRec),
      applyMarks t (ms ++ [m]) = applyMark (applyMarks t ms) m)
    ∧ (∀ (t : Str) (m : MarkRec), m.type = mtBold ∨ m.type = mtStrong →
        applyMark t m = strongOpen ++ t ++ strongClose)
    ∧ (∀ (t : Str) (m : MarkRec), m.type = mtItalic ∨ m.type = mtEm →
        applyMark t m = emOpen ++ t ++ emClose)
    ∧ (∀ (t : Str) (m : MarkRec), m.type = mtCode →
        applyMark t m = codeOpen ++ t ++ codeClose)
    ∧ (∀ (t : Str) (m : MarkRec), m.type = mtLink →
        applyMark t m = anchorPre ++ markHref m ++ anchorMid ++ t ++ anchorClose)
    ∧ markHref ⟨mtLink, none⟩ = hashStr
    ∧ (∀ (t : Str) (m : MarkRec),
        m.type ∉ ([mtBold, mtStrong, mtItalic, mtEm, mtCode, mtLink] : List Str) →
        applyMark t m = t)
    ∧ RenderNode xBoldLink
        = some (.inline
            ("<a href=\"/a\" class=\"text-blue-600 hover:underline\"><strong>x</strong></a>").toList)
    ∧ RenderNode xLinkBold
        = some (.inline
            ("<strong><a href=\"/a\" class=\"text-blue-600 hover:underline\">x</a></strong>").toList)
    ∧ applyMarks ['x'] [boldMark, linkMarkA] ≠ applyMarks ['x'] [linkMarkA, boldMark] := by
  refine ⟨?_, ?_, ?_, ?_, ?_, by decide, ?_, ?_, ?_, by decide⟩
  · intro t ms m
    simp [applyMarks, List.foldl_append]
  · intro t m h
    rw [applyMark, if_pos h]
  · intro t m h
    have h1 : ¬ (m.type = mtBold ∨ m.type = mtStrong) := by
      rcases h with h | h <;> rw [h] <;> decide
    rw [applyMark, if_neg h1, if_pos h]
  · intro t m h
    have h1 : ¬ (m.type = mtBold ∨ m.type = mtStrong) := by rw [h]; decide
    have h2 : ¬ (m.type = mtItalic ∨ m.type = mtEm) := by rw [h]; decide
    rw [applyMark, if_neg h1, if_neg h2, if_pos h]
  · intro t m h
    have h1 : ¬ (m.type = mtBold ∨ m.type = mtStrong) := by rw [h]; decide
    have h2 : ¬ (m.type = mtItalic ∨ m.type = mtEm) := by rw [h]; decide
    have h3 : ¬ (m.type = mtCode) := by rw [h]; decide
    rw [applyMark, if_neg h1, if_neg h2, if_neg h3, if_pos h]
  · intro t m h
    simp only [List.mem_cons, List.not_mem_nil, or_false, not_or] at h
    obtain ⟨n1, n2, n3, n4, n5, n6⟩ := h
    rw [applyMark, if_neg (by tauto), if_neg (by tauto), if_neg n5, if_neg n6]
  · rw [xBoldLink, RenderNode]
    simp +decide
  · rw [xLinkBold, RenderNode]
    simp +decide

/-- Witness for C2: the order clause, a wrap clause and the unknown-mark
clause applied at concrete marks. -/
theorem mark_stacking_order_witness :
    applyMarks ['x'] ([boldMark] ++ [linkMarkA]) = applyMark (applyMarks ['x'] [boldMark]) linkMarkA
    ∧ applyMark ['x'] boldMark = strongOpen ++ ['x'] ++ strongClose
    ∧ applyMark ['x'] ⟨("underline").toList, none⟩ = ['x'] :=
  ⟨mark_stacking_order.1 ['x'] [boldMark] linkMarkA,
   mark_stacking_order.2.1 ['x'] boldMark (by decide),
   mark_stacking_order.2.2.2.2.2.2.1 ['x'] ⟨("underline").toList, none⟩ (by decide)⟩

/-- A heading node with `attrs.level = −1` and text `"Hi"`. -/
def negHeading : JNode :=
  .node tyHeading (some { Attrs.empty with level := some (-1) }) none none
    (some [JNode.node tyText none (some ("Hi").toList) none none])

/-- C6 counterexample.  The heading branch computes `Math.min(level, 6)`
with `level = attrs?.level || 1`, which clamps only from above: a heading
with `attrs.level = −1` is emitted at level `−1`, which is not in the claimed
range `1–6`. -/
theorem heading_level_counterexample :
    RenderNode negHeading = some (.heading (-1) ("hi").toList ("Hi").toList)
    ∧ ¬ ((1 : Int) ≤ -1) := by
  refine ⟨?_, by decide⟩
  rw [negHeading, RenderNode]
  simp +decide [levelOf, Attrs.empty, generateId]

/-- C6 as amended: every heading node is emitted at level
`min(level, 6)` where `level` is `attrs.level` with missing or zero level
defaulting to `1` — clamped from above to 6 but not from below — carrying as
anchor id the slug of its flattened text (first conjunct); whenever the
effective level is at least 1 the emitted level does lie in `1–6` (second
conjunct); the missing and zero levels default to `1` (third and fourth
conjuncts); and the slug is the flattened text lower-cased with runs of
non-alphanumeric characters collapsed to single hyphens and boundary hyphens
trimmed, as on the concrete examples (last conjuncts). -/
theorem heading_slug_level :
    (∀ (a : Option Attrs) (t : Option Str) (mk : Option (List MarkRec))
        (c : Option (List JNode)),
      RenderNode (.node tyHeading a t mk c)
        = some (.heading (min (levelOf a) 6)
            (generateId (extractText (.node tyHeading a t mk c)))
            (extractText (.node tyHeading a t mk c))))
    ∧ (∀ a : Option Attrs, 1 ≤ levelOf a →
        1 ≤ min (levelOf a) 6 ∧ min (levelOf a) 6 ≤ 6)
    ∧ levelOf none = 1
    ∧ levelOf (some { Attrs.empty with level := some 0 }) = 1
    ∧ generateId (("Hello, World!").toList) = ("hello-world").toList
    ∧ generateId (("  Async/Await -- 101 ").toList) = ("async-await-101").toList := by
  refine ⟨?_, ?_, by decide, by decide, by decide, by decide⟩
  · intro a t mk c
    rw [RenderNode.eq_def]
    simp +decide
  · intro a h
    constructor
    · exact le_min h (by decide)
    · exact min_le_right _ _

/-- Witness for C6: the heading equation at a concrete level-3 heading, and
the clamp clause at that level. -/
theorem heading_slug_level_witness :
    RenderNode (.node tyHeading (some { Attrs.empty with level := some 3 }) none none
        (some [JNode.node tyText none (some ("Hi").toList) none none]))
      = some (.heading (min (levelOf (some { Attrs.empty with level := some 3 })) 6)
          (generateId (extractText (.node tyHeading
            (some { Attrs.empty with level := some 3 }) none none
            (some [JNode.node tyText none (some ("Hi").toList) none none]))))
          (extractText (.node tyHeading (some { Attrs.empty with level := some 3 }) none none
            (some [JNode.node tyText none (some ("Hi").toList) none none]))))
    ∧ (1 ≤ min (levelOf (some { Attrs.empty with level := some 3 })) 6
        ∧ min (levelOf (some { Attrs.empty with level := some 3 })) 6 ≤ 6) :=
  ⟨heading_slug_level.1 (some { Attrs.empty with level := some 3 }) none none
      (some [JNode.node tyText none (some ("Hi").toList) none none]),
   heading_slug_level.2.1 (some { Attrs.empty with level := some 3 }) (by decide)⟩

/-! ## Search client claims -/

/-- C7. `query` short-circuits: an input that trims to the empty string
returns a resolved empty result list with the world untouched, no fetch and
no warning (first conjunct); a non-empty input while the data source reports
search disabled returns a resolved empty result list with the world
untouched, no fetch, and the warning logged (second conjunct).  In both
cases the result holds for every starting world, so neither the caches nor
the fuzzy structure influence the outcome. -/
theorem query_short_circuits :
    ∀ (env : Env) (website : Website) (copts : ClientOptions) (q : Str)
      (qopts : QueryOptions) (w : World),
      (jsTrim q = [] → query env website copts q qopts w = ⟨.ok [], w, [], false⟩)
      ∧ (jsTrim q ≠ [] → website.searchEnabled = false →
          query env website copts q qopts w = ⟨.ok [], w, [], true⟩) := by
  intro env website copts q qopts w
  constructor
  · intro h
    simp [query, h]
  · intro h henabled
    simp [query, h, henabled]

/-- A data source with search disabled. -/
def disabledSite : Website := ⟨false, ("https://example.org/index.json").toList⟩

/-- An environment whose network always fails, witnessing that the
short-circuits never reach it. -/
def failingEnv : Env :=
  ⟨fun _ => .netError, true, fun es => ⟨es, fun _ => []⟩⟩

/-- Witness for C7: a whitespace-only query and a disabled-search query, both
against a failing network. -/
theorem query_short_circuits_witness :
    query failingEnv disabledSite defaultClientOptions ([' ', ' ']) defaultQueryOptions
        ⟨[], [], none⟩ = ⟨.ok [], ⟨[], [], none⟩, [], false⟩
    ∧ query failingEnv disabledSite defaultClientOptions (['h', 'i']) defaultQueryOptions
        ⟨[], [], none⟩ = ⟨.ok [], ⟨[], [], none⟩, [], true⟩ :=
  ⟨(query_short_circuits failingEnv disabledSite defaultClientOptions ([' ', ' '])
      defaultQueryOptions ⟨[], [], none⟩).1 (by decide),
   (query_short_circuits failingEnv disabledSite defaultClientOptions (['h', 'i'])
      defaultQueryOptions ⟨[], [], none⟩).2 (by decide) rfl⟩

/-- The fetch outcomes that make index loading fail: a network rejection or
a response with a non-success status. -/
def fetchFails (env : Env) (url : Str) : Prop :=
  match env.fetch url with
  | .netError => True
  | .resp ok _ _ => ok = false

/-- Replace the storage component of the world. -/
def setStorage (w : World) (st : Option Store) : World := { w with storage := st }

/-- A store whose `setItem` throws (quota exceeded). -/
def withWriteFailure (st : Store) : Store := { st with writeFails := true }

theorem saveToStorage_indexCache (ck : Str) (p : Payload) (w : World) :
    (saveToStorage ck p w).indexCache = w.indexCache := by
  cases hs : w.storage with
  | none => simp [saveToStorage, hs]
  | some store =>
    by_cases hw : store.writeFails <;> simp [saveToStorage, hs, hw]

theorem saveToStorage_fuseCache (ck : Str) (p : Payload) (w : World) :
    (saveToStorage ck p w).fuseCache = w.fuseCache := by
  cases hs : w.storage with
  | none => simp [saveToStorage, hs]
  | some store =>
    by_cases hw : store.writeFails <;> simp [saveToStorage, hs, hw]

/-- The settled value and the fetch trace of `loadSearchIndex` depend on the
world only through its index cache and the result of the durable-cache
read. -/
theorem loadSearchIndex_res_congr (env : Env) (indexUrl cacheKey : Str)
    (useStorage : Bool) (w w' : World)
    (hidx : w'.indexCache = w.indexCache)
    (hload : loadFromStorage cacheKey w' = loadFromStorage cacheKey w) :
    (loadSearchIndex env indexUrl cacheKey useStorage w').res
        = (loadSearchIndex env indexUrl cacheKey useStorage w).res
    ∧ (loadSearchIndex env indexUrl cacheKey useStorage w').fetched
        = (loadSearchIndex env indexUrl cacheKey useStorage w).fetched := by
  simp only [loadSearchIndex, hidx, hload]
  cases alookup cacheKey w.indexCache with
  | some p => exact ⟨rfl, rfl⟩
  | none =>
    cases (if useStorage then loadFromStorage cacheKey w else none) with
    | some c => exact ⟨rfl, rfl⟩
    | none =>
      cases env.fetch indexUrl with
      | netError => exact ⟨rfl, rfl⟩
      | resp ok status body => by_cases h : ok <;> simp [h]

/-- C8. Index loading rejects exactly when it actually reaches the network
and the fetch fails or returns a non-success status (first conjunct: the
settled result is an error iff the call fetched and the fetch outcome was
bad).  Every durable-cache failure is swallowed and treated as a miss: an
unavailable store reads as `null` (second conjunct); a corrupt JSON item or
a payload without an `entries` array reads as `null` and leaves the settled
result and fetch trace identical to running with no storage at all (third
and fourth conjuncts); and a failing `setItem` never changes the settled
result (fifth conjunct). -/
theorem index_load_failure_semantics :
    (∀ (env : Env) (indexUrl cacheKey : Str) (useStorage : Bool) (w : World),
      (∃ err, (loadSearchIndex env indexUrl cacheKey useStorage w).res = .error err)
        ↔ ((loadSearchIndex env indexUrl cacheKey useStorage w).fetched ≠ []
            ∧ fetchFails env indexUrl))
    ∧ (∀ (cacheKey : Str) (w : World), w.storage = none →
        loadFromStorage cacheKey w = none)
    ∧ (∀ (env : Env) (indexUrl cacheKey : Str) (w : World) (store : Store),
        w.storage = some store →
        alookup (storageNS ++ cacheKey) store.items = some .corrupt →
        loadFromStorage cacheKey w = none
        ∧ (loadSearchIndex env indexUrl cacheKey true w).res
            = (loadSearchIndex env indexUrl cacheKey true (setStorage w none)).res)
    ∧ (∀ (env : Env) (indexUrl cacheKey : Str) (w : World) (store : Store),
        w.storage = some store →
        alookup (storageNS ++ cacheKey) store.items = some (.value ⟨none⟩) →
        loadFromStorage cacheKey w = none
        ∧ (loadSearchIndex env indexUrl cacheKey true w).res
            = (loadSearchIndex env indexUrl cacheKey true (setStorage w none)).res)
    ∧ (∀ (env : Env) (indexUrl cacheKey : Str) (w : World) (store : Store),
        w.storage = some store →
        (loadSearchIndex env indexUrl cacheKey true
            (setStorage w (some (withWriteFailure store)))).res
          = (loadSearchIndex env indexUrl cacheKey true w).res) := by
  refine ⟨?_, ?_, ?_, ?_, ?_⟩
  · intro env indexUrl cacheKey useStorage w
    simp only [loadSearchIndex]
    cases alookup cacheKey w.indexCache with
    | some p => simp
    | none =>
      cases (if useStorage then loadFromStorage cacheKey w else none) with
      | some c => simp
      | none =>
        cases hf : env.fetch indexUrl with
        | netError => simp [fetchFails, hf]
        | resp ok status body =>
          by_cases h : ok <;> simp [fetchFails, hf, h]
  · intro cacheKey w hs
    simp [loadFromStorage, hs]
  · intro env indexUrl cacheKey w store hs hitem
    have hload : loadFromStorage cacheKey w = none := by
      simp [loadFromStorage, hs, hitem]
    refine ⟨hload, ?_⟩
    exact (loadSearchIndex_res_congr env indexUrl cacheKey true (setStorage w none) w
      rfl (by rw [hload]; simp [loadFromStorage, setStorage])).1
  · intro env indexUrl cacheKey w store hs hitem
    have hload : loadFromStorage cacheKey w = none := by
      simp [loadFromStorage, hs, hitem]
    refine ⟨hload, ?_⟩
    exact (loadSearchIndex_res_congr env indexUrl cacheKey true (setStorage w none) w
      rfl (by rw [hload]; simp [loadFromStorage, setStorage])).1
  · intro env indexUrl cacheKey w store hs
    exact (loadSearchIndex_res_congr env indexUrl cacheKey true w
      (setStorage w (some (withWriteFailure store)))
      rfl (by simp [loadFromStorage, setStorage, withWriteFailure, hs])).1

/-- A corrupt durable item under the key the loader reads for the URL
`"u"`. -/
def corruptStore : Store := ⟨[(storageNS ++ ['u'], .corrupt)], false⟩

/-- Witness for C8: with an empty memory cache, a corrupt durable item and a
rejecting network, loading the index for the URL `"u"` fetches and settles
with the network error — and the corrupt item reads as a cache miss. -/
theorem index_load_failure_semantics_witness :
    ((loadSearchIndex failingEnv ['u'] ['u'] true ⟨[], [], some corruptStore⟩).fetched ≠ []
      ∧ fetchFails failingEnv ['u'])
    ∧ loadFromStorage ['u'] ⟨[], [], some corruptStore⟩ = none :=
  ⟨(index_load_failure_semantics.1 failingEnv ['u'] ['u'] true
      ⟨[], [], some corruptStore⟩).mp ⟨.network, rfl⟩,
   (index_load_failure_semantics.2.2.1 failingEnv ['u'] ['u']
      ⟨[], [], some corruptStore⟩ corruptStore rfl rfl).1⟩

/-! ## Association-list lemmas for the cache layers -/

/-- The well-formedness `Map` guarantees: distinct keys. -/
def keysNodup (l : List (Str × α)) : Prop := (l.map Prod.fst).Nodup

theorem alookup_eq_none_of_not_mem (k : Str) (l : List (Str × α))
    (h : k ∉ l.map Prod.fst) : alookup k l = none := by
  induction l with
  | nil => rfl
  | cons kv rest ih =>
    obtain ⟨k0, v0⟩ := kv
    simp only [List.map_cons, List.mem_cons, not_or] at h
    have hne : k0 ≠ k := fun he => h.1 he.symm
    simp only [alookup, if_neg hne]
    exact ih h.2

theorem alookup_adel_self (k : Str) :
    ∀ l : List (Str × α), keysNodup l → alookup k (adel k l) = none := by
  intro l
  induction l with
  | nil => intro _; rfl
  | cons kv rest ih =>
    intro h
    obtain ⟨k0, v0⟩ := kv
    simp only [keysNodup, List.map_cons, List.nodup_cons] at h
    by_cases he : k0 = k
    · subst he
      simp only [adel, if_pos rfl]
      exact alookup_eq_none_of_not_mem k0 rest h.1
    · simp only [adel, if_neg he, alookup, if_neg he]
      exact ih h.2

theorem alookup_adel_other (k k' : Str) (hne : k' ≠ k) (l : List (Str × α)) :
    alookup k' (adel k l) = alookup k' l := by
  induction l with
  | nil => rfl
  | cons kv rest ih =>
    obtain ⟨k0, v0⟩ := kv
    by_cases he : k0 = k
    · subst he
      have h0 : k0 ≠ k' := fun h => hne h.symm
      simp [adel, alookup, h0]
    · simp only [adel, if_neg he, alookup, ih]

theorem alookup_aset_other (k k' : Str) (hne : k' ≠ k) (v : α) (l : List (Str × α)) :
    alookup k' (aset k v l) = alookup k' l := by
  induction l with
  | nil =>
    have h0 : k ≠ k' := fun h => hne h.symm
    simp [aset, alookup, h0]
  | cons kv rest ih =>
    obtain ⟨k0, v0⟩ := kv
    by_cases he : k0 = k
    · subst he
      have h0 : k0 ≠ k' := fun h => hne h.symm
      simp [aset, alookup, h0]
    · simp only [aset, if_neg he, alookup, ih]

theorem alookup_filter_key (p : Str → Bool) (l : List (Str × α)) (k : Str) :
    alookup k (l.filter (fun kv => p kv.1))
      = if p k then alookup k l else none := by
  induction l with
  | nil => simp [alookup]
  | cons kv rest ih =>
    obtain ⟨k0, v0⟩ := kv
    by_cases h0 : k0 = k
    · subst h0
      by_cases hp : p k0
      · simp [List.filter_cons, hp, alookup, ih]
      · simp [List.filter_cons, hp, alookup, ih]
    · by_cases hp : p k0
      · simp [List.filter_cons, hp, alookup, h0, ih]
      · simp [List.filter_cons, hp, alookup, h0, ih]

/-! ## C9 : cache key scoping -/

/-- Replace the fuse-cache component of the world. -/
def setFuseCache (w : World) (m : List (Str × Fuse)) : World := { w with fuseCache := m }

/-- Replace the index-cache component of the world. -/
def setIndexCache (w : World) (m : List (Str × Payload)) : World := { w with indexCache := m }

theorem loadFromStorage_setIndexCache (ck : Str) (w : World) (m : List (Str × Payload)) :
    loadFromStorage ck (setIndexCache w m) = loadFromStorage ck w := rfl

theorem loadFromStorage_setFuseCache (ck : Str) (w : World) (m : List (Str × Fuse)) :
    loadFromStorage ck (setFuseCache w m) = loadFromStorage ck w := rfl

theorem setIndexCache_indexCache (w : World) (m : List (Str × Payload)) :
    (setIndexCache w m).indexCache = m := rfl

/-- The function `loadSearchIndex` never touches the fuse cache. -/
theorem loadSearchIndex_fuseCache (env : Env) (indexUrl cacheKey : Str)
    (useStorage : Bool) (w : World) :
    (loadSearchIndex env indexUrl cacheKey useStorage w).world.fuseCache = w.fuseCache := by
  simp only [loadSearchIndex]
  cases alookup cacheKey w.indexCache with
  | some p => rfl
  | none =>
    cases (if useStorage then loadFromStorage cacheKey w else none) with
    | some c => rfl
    | none =>
      cases env.fetch indexUrl with
      | netError => rfl
      | resp ok status body =>
        by_cases h : ok
        · simp only [h, if_pos]
          by_cases hu : useStorage
          · simp [hu, saveToStorage_fuseCache]
          · simp [hu]
        · simp [h]

/-- The function `loadSearchIndex` touches the index cache only at its own cache key. -/
theorem loadSearchIndex_indexCache_other (env : Env) (indexUrl cacheKey : Str)
    (useStorage : Bool) (w : World) (k : Str) (hk : k ≠ cacheKey) :
    alookup k ((loadSearchIndex env indexUrl cacheKey useStorage w).world.indexCache)
      = alookup k w.indexCache := by
  simp only [loadSearchIndex]
  cases alookup cacheKey w.indexCache with
  | some p => rfl
  | none =>
    cases (if useStorage then loadFromStorage cacheKey w else none) with
    | some c => simpa using alookup_aset_other cacheKey k hk c w.indexCache
    | none =>
      cases env.fetch indexUrl with
      | netError => rfl
      | resp ok status body =>
        by_cases h : ok
        · simp only [h, if_pos]
          by_cases hu : useStorage
          · simp only [hu, if_pos]
            rw [saveToStorage_indexCache]
            simpa using alookup_aset_other cacheKey k hk body w.indexCache
          · simp only [hu, Bool.false_eq_true, if_neg]
            simpa using alookup_aset_other cacheKey k hk body w.indexCache
        · simp [h]

/-- The settled value of `loadSearchIndex` ignores entries of the index
cache stored under other keys. -/
theorem loadSearchIndex_res_aset_other (env : Env) (indexUrl cacheKey : Str)
    (useStorage : Bool) (w : World) (k : Str) (p : Payload) (hk : k ≠ cacheKey) :
    (loadSearchIndex env indexUrl cacheKey useStorage
        (setIndexCache w (aset k p w.indexCache))).res
      = (loadSearchIndex env indexUrl cacheKey useStorage w).res := by
  simp only [loadSearchIndex, loadFromStorage_setIndexCache, setIndexCache_indexCache]
  rw [alookup_aset_other k cacheKey (fun h => hk h.symm) p w.indexCache]
  cases alookup cacheKey w.indexCache with
  | some q => rfl
  | none =>
    cases (if useStorage then loadFromStorage cacheKey w else none) with
    | some c => rfl
    | none =>
      cases env.fetch indexUrl with
      | netError => rfl
      | resp ok status body => by_cases h : ok <;> simp [h]

/-- The settled value of `loadSearchIndex` ignores the fuse cache. -/
theorem loadSearchIndex_res_setFuseCache (env : Env) (indexUrl cacheKey : Str)
    (useStorage : Bool) (w : World) (m : List (Str × Fuse)) :
    (loadSearchIndex env indexUrl cacheKey useStorage (setFuseCache w m)).res
      = (loadSearchIndex env indexUrl cacheKey useStorage w).res :=
  (loadSearchIndex_res_congr env indexUrl cacheKey useStorage w (setFuseCache w m)
    rfl rfl).1

/-- If the fuse-cache lookup and the settled index load agree on two worlds,
`getFuse` settles identically on them. -/
theorem getFuse_res_eq_of (env : Env) (website : Website) (useS : Bool) (w w' : World)
    (hfc : alookup website.searchIndexUrl w'.fuseCache
            = alookup website.searchIndexUrl w.fuseCache)
    (hres : (loadSearchIndex env website.searchIndexUrl website.searchIndexUrl useS w').res
              = (loadSearchIndex env website.searchIndexUrl website.searchIndexUrl useS w).res) :
    (getFuse env website useS w').res = (getFuse env website useS w).res := by
  simp only [getFuse, hfc]
  cases h1 : alookup website.searchIndexUrl w.fuseCache with
  | some f => rfl
  | none =>
    rcases hL' : loadSearchIndex env website.searchIndexUrl website.searchIndexUrl useS w'
      with ⟨res', w1', fs'⟩
    rcases hL : loadSearchIndex env website.searchIndexUrl website.searchIndexUrl useS w
      with ⟨res, w1, fs⟩
    rw [hL', hL] at hres
    simp only at hres
    subst hres
    cases res' with
    | error e => rfl
    | ok index => by_cases hA : env.fuseAvailable <;> simp [hA]

/-- The function `getFuse` writes the two in-memory caches only at the resolved index
URL. -/
theorem getFuse_frame (env : Env) (website : Website) (useS : Bool) (w : World)
    (k : Str) (hk : k ≠ website.searchIndexUrl) :
    alookup k ((getFuse env website useS w).world.fuseCache) = alookup k w.fuseCache
    ∧ alookup k ((getFuse env website useS w).world.indexCache) = alookup k w.indexCache := by
  simp only [getFuse]
  cases hfc : alookup website.searchIndexUrl w.fuseCache with
  | some f => exact ⟨rfl, rfl⟩
  | none =>
    rcases hL : loadSearchIndex env website.searchIndexUrl website.searchIndexUrl useS w
      with ⟨res, w1, fs⟩
    have hfuse : w1.fuseCache = w.fuseCache := by
      have h := loadSearchIndex_fuseCache env website.searchIndexUrl website.searchIndexUrl useS w
      rw [hL] at h
      exact h
    have hidx : alookup k w1.indexCache = alookup k w.indexCache := by
      have h := loadSearchIndex_indexCache_other env website.searchIndexUrl
        website.searchIndexUrl useS w k hk
      rw [hL] at h
      exact h
    cases res with
    | error e =>
      constructor
      · show alookup k w1.fuseCache = alookup k w.fuseCache
        rw [hfuse]
      · exact hidx
    | ok index =>
      by_cases hA : env.fuseAvailable
      · rw [hA]
        constructor
        · show alookup k (aset website.searchIndexUrl (env.makeFuse (index.entries.getD []))
              w1.fuseCache) = alookup k w.fuseCache
          rw [alookup_aset_other website.searchIndexUrl k hk _ w1.fuseCache, hfuse]
        · exact hidx
      · have hA2 : env.fuseAvailable = false := by
          cases h : env.fuseAvailable
          · rfl
          · exact absurd h hA
        rw [hA2]
        constructor
        · show alookup k w1.fuseCache = alookup k w.fuseCache
          rw [hfuse]
        · exact hidx

/-- Keyed `clearSearchCache` deletes the key from the memory index cache. -/
theorem clearSearchCache_some_indexCache (k : Str) (hk : k ≠ []) (w : World) :
    (clearSearchCache (some k) w).indexCache = adel k w.indexCache := by
  simp [clearSearchCache, hk]

/-- Keyed `clearSearchCache` deletes the key from the fuse cache. -/
theorem clearSearchCache_some_fuseCache (k : Str) (hk : k ≠ []) (w : World) :
    (clearSearchCache (some k) w).fuseCache = adel k w.fuseCache := by
  simp [clearSearchCache, hk]

/-- Keyed `clearSearchCache` removes the namespaced durable item. -/
theorem clearSearchCache_some_storage (k : Str) (hk : k ≠ []) (w : World)
    (store : Store) (hs : w.storage = some store) :
    (clearSearchCache (some k) w).storage
      = some ({ store with items := adel (storageNS ++ k) store.items }) := by
  simp [clearSearchCache, hk, hs]

theorem clearSearchCache_none_indexCache (w : World) :
    (clearSearchCache none w).indexCache = [] := rfl

theorem clearSearchCache_none_fuseCache (w : World) :
    (clearSearchCache none w).fuseCache = [] := rfl

/-- Un-keyed `clearSearchCache` removes exactly the namespaced durable
items. -/
theorem clearSearchCache_none_storage (w : World) (store : Store)
    (hs : w.storage = some store) :
    (clearSearchCache none w).storage
      = some ({ store with items :=
          store.items.filter (fun kv => ! jsStartsWith kv.1 storageNS) }) := by
  simp [clearSearchCache, hs]

/-- C9. Cache entries are keyed by the resolved index URL.  Keyed
`clearSearchCache(k)` removes exactly `k` from the memory index cache and
the fuzzy-structure cache and exactly the namespaced item of `k` from the
durable store, leaving every other key in all three layers untouched (first
conjunct).  `clearSearchCache()` with no key empties both in-memory caches
and removes exactly the namespaced items from the durable store (second
conjunct).  `getFuse` — the only reader/writer of the fuzzy-structure cache
— writes the caches only under its own resolved index URL (third conjunct),
and its settled result is unaffected by entries cached under any other URL,
so two clients with different index URLs never share a fuzzy-structure
cache entry (fourth and fifth conjuncts). -/
theorem cache_key_scoping :
    (∀ (k : Str) (w : World), k ≠ [] →
      keysNodup w.indexCache → keysNodup w.fuseCache →
      alookup k (clearSearchCache (some k) w).indexCache = none
      ∧ alookup k (clearSearchCache (some k) w).fuseCache = none
      ∧ (∀ k' : Str, k' ≠ k →
          alookup k' (clearSearchCache (some k) w).indexCache = alookup k' w.indexCache
          ∧ alookup k' (clearSearchCache (some k) w).fuseCache = alookup k' w.fuseCache)
      ∧ (∀ store : Store, w.storage = some store → keysNodup store.items →
          (clearSearchCache (some k) w).storage
              = some ({ store with items := adel (storageNS ++ k) store.items })
            ∧ alookup (storageNS ++ k) (adel (storageNS ++ k) store.items) = none
            ∧ (∀ sk : Str, sk ≠ storageNS ++ k →
                alookup sk (adel (storageNS ++ k) store.items)
                  = alookup sk store.items)))
    ∧ (∀ w : World,
        (clearSearchCache none w).indexCache = []
        ∧ (clearSearchCache none w).fuseCache = []
        ∧ (∀ store : Store, w.storage = some store →
            (clearSearchCache none w).storage
                = some ({ store with items :=
                    store.items.filter (fun kv => ! jsStartsWith kv.1 storageNS) })
              ∧ (∀ sk : Str, jsStartsWith sk storageNS = true →
                  alookup sk (store.items.filter (fun kv => ! jsStartsWith kv.1 storageNS))
                    = none)
              ∧ (∀ sk : Str, jsStartsWith sk storageNS = false →
                  alookup sk (store.items.filter (fun kv => ! jsStartsWith kv.1 storageNS))
                    = alookup sk store.items)))
    ∧ (∀ (env : Env) (website : Website) (useS : Bool) (w : World) (k : Str),
        k ≠ website.searchIndexUrl →
        alookup k ((getFuse env website useS w).world.fuseCache) = alookup k w.fuseCache
        ∧ alookup k ((getFuse env website useS w).world.indexCache)
            = alookup k w.indexCache)
    ∧ (∀ (env : Env) (website : Website) (useS : Bool) (w : World) (k : Str) (f : Fuse),
        k ≠ website.searchIndexUrl →
        (getFuse env website useS (setFuseCache w (aset k f w.fuseCache))).res
          = (getFuse env website useS w).res)
    ∧ (∀ (env : Env) (website : Website) (useS : Bool) (w : World) (k : Str) (p : Payload),
        k ≠ website.searchIndexUrl →
        (getFuse env website useS (setIndexCache w (aset k p w.indexCache))).res
          = (getFuse env website useS w).res) := by
  refine ⟨?_, ?_, ?_, ?_, ?_⟩
  · intro k w hk hnodupIdx hnodupFuse
    rw [clearSearchCache_some_indexCache k hk w, clearSearchCache_some_fuseCache k hk w]
    refine ⟨alookup_adel_self k w.indexCache hnodupIdx,
      alookup_adel_self k w.fuseCache hnodupFuse, ?_, ?_⟩
    · intro k' hk'
      exact ⟨alookup_adel_other k k' hk' w.indexCache,
        alookup_adel_other k k' hk' w.fuseCache⟩
    · intro store hs hnodupStore
      refine ⟨clearSearchCache_some_storage k hk w store hs,
        alookup_adel_self _ store.items hnodupStore, ?_⟩
      intro sk hsk
      exact alookup_adel_other (storageNS ++ k) sk hsk store.items
  · intro w
    refine ⟨clearSearchCache_none_indexCache w, clearSearchCache_none_fuseCache w, ?_⟩
    intro store hs
    refine ⟨clearSearchCache_none_storage w store hs, ?_, ?_⟩
    · intro sk hsk
      rw [alookup_filter_key (fun key => ! jsStartsWith key storageNS) store.items sk]
      simp [hsk]
    · intro sk hsk
      rw [alookup_filter_key (fun key => ! jsStartsWith key storageNS) store.items sk]
      simp [hsk]
  · intro env website useS w k hk
    exact getFuse_frame env website useS w k hk
  · intro env website useS w k f hk
    exact getFuse_res_eq_of env website useS w (setFuseCache w (aset k f w.fuseCache))
      (alookup_aset_other k website.searchIndexUrl (fun h => hk h.symm) f w.fuseCache)
      (loadSearchIndex_res_setFuseCache env website.searchIndexUrl website.searchIndexUrl
        useS w (aset k f w.fuseCache))
  · intro env website useS w k p hk
    exact getFuse_res_eq_of env website useS w (setIndexCache w (aset k p w.indexCache))
      rfl
      (loadSearchIndex_res_aset_other env website.searchIndexUrl website.searchIndexUrl
        useS w k p hk)

/-- Witness for C9: clearing the key `"u"` empties exactly that entry of a
one-entry index cache while a differently-keyed entry survives. -/
theorem cache_key_scoping_witness :
    alookup ['u']
        (clearSearchCache (some ['u'])
          ⟨[(['u'], ⟨none⟩), (['v'], ⟨none⟩)], [], none⟩).indexCache = none
    ∧ alookup ['v']
        (clearSearchCache (some ['u'])
          ⟨[(['u'], ⟨none⟩), (['v'], ⟨none⟩)], [], none⟩).indexCache
        = alookup ['v'] ([(['u'], (⟨none⟩ : Payload)), (['v'], ⟨none⟩)]) :=
  ⟨(cache_key_scoping.1 ['u'] ⟨[(['u'], ⟨none⟩), (['v'], ⟨none⟩)], [], none⟩
      (by decide) (by simp [keysNodup]) (by simp [keysNodup])).1,
   ((cache_key_scoping.1 ['u'] ⟨[(['u'], ⟨none⟩), (['v'], ⟨none⟩)], [], none⟩
      (by decide) (by simp [keysNodup]) (by simp [keysNodup])).2.2.1 ['v']
      (by decide)).1⟩

/-- C10. Every result `query` resolves with carries
`href = route + '#' + anchor` when the entry has a truthy (non-empty)
anchor, and `href = route` otherwise; the projection copies `route` and
`anchor` verbatim from the entry, so the law is stated on the result's own
fields. -/
theorem result_href_projection :
    ∀ (env : Env) (website : Website) (copts : ClientOptions) (q : Str)
      (qopts : QueryOptions) (w : World) (rs : List SResult) (r : SResult),
      (query env website copts q qopts w).res = .ok rs → r ∈ rs →
      r.href = (match r.anchor with
        | some a => if a = [] then r.route else r.route ++ hashStr ++ a
        | none => r.route) := by
  intro env website copts q qopts w rs r hres hmem
  by_cases h1 : jsTrim q = []
  · simp [query, h1] at hres
    subst hres
    simp at hmem
  · by_cases h2 : website.searchEnabled
    · rcases hg : getFuse env website copts.useStorage w with ⟨res1, w1, fs1⟩
      cases res1 with
      | error e => simp [query, h1, h2, hg] at hres
      | ok fuse =>
        simp [query, h1, h2, hg] at hres
        subst hres
        obtain ⟨hit, hhit, hr⟩ := List.mem_map.mp (List.take_subset _ _ hmem)
        subst hr
        cases ha : hit.1.anchor with
        | none => simp [projectResult, ha]
        | some a => by_cases haa : a = [] <;> simp [projectResult, ha, haa]
    · simp [query, h1, h2] at hres
      subst hres
      simp at hmem

/-- An index entry with a non-empty anchor, for the C10 witness. -/
def entryA : Entry :=
  ⟨['1'], ("page").toList, ("/docs").toList, none, some (("sec").toList),
    ("Guide").toList, none, none, none, ("hello world").toList, none⟩

/-- A Fuse instance that returns `entryA` for every query. -/
def fuseA : Fuse := ⟨[entryA], fun _ => [(entryA, [])]⟩

/-- A site with search enabled, whose fuzzy structure for its index URL is
already cached. -/
def siteA : Website := ⟨true, ("https://example.org/index.json").toList⟩

def worldA : World := ⟨[], [(siteA.searchIndexUrl, fuseA)], none⟩

/-- Witness for C10: the single result of a concrete query against `siteA`
carries `href = "/docs" + "#" + "sec"`. -/
theorem result_href_projection_witness :
    (projectResult entryA []).href
      = (match (projectResult entryA []).anchor with
          | some a => if a = [] then (projectResult entryA []).route
              else (projectResult entryA []).route ++ hashStr ++ a
          | none => (projectResult entryA []).route) :=
  result_href_projection failingEnv siteA defaultClientOptions (("hello").toList)
    defaultQueryOptions worldA [projectResult entryA []] (projectResult entryA [])
    rfl (List.mem_singleton.mpr rfl)

end Kit
